import Mathlib

/-!
Verification of the query-intent resolver of `src/server/agent.js`
(YtChat-AiAgent).  Each JavaScript regular expression of the source is
embedded as an executable scanner over `List Char` that reproduces the
leftmost-match, greedy-with-backtracking semantics of the concrete pattern.
JS numbers that hold integer quantities are modelled as `Int` (or `Nat`
where the source can only produce non-negative values); JS `undefined`
flowing out of an out-of-range array index is modelled as `Option.none`;
a thrown JS error is modelled through `Except`.
-/

/-- JS whitespace class `\s` (the inputs in question only contain ASCII
whitespace, where the two notions agree). -/
def isWs (c : Char) : Bool := c.isWhitespace

/-- JS word class `\w`, i.e. ASCII letters, digits and underscore. -/
def isWordC (c : Char) : Bool := c.isAlphanum || c = '_'

/-- ASCII lower-casing, as JS `String.toLowerCase` acts on the ASCII
patterns used by `parseTimeString`. -/
def lowerC (c : Char) : Char :=
  if 65 ≤ c.toNat ∧ c.toNat ≤ 90 then Char.ofNat (c.toNat + 32) else c

/-- The ten decimal digit characters. -/
def digitChars : List Char := "0123456789".toList

/-- Value of a captured digit run, as JS `parseInt(str, 10)` on a string of
decimal digits. -/
def digitsVal (ds : List Char) : Nat :=
  ds.foldl (fun a c => a * 10 + (c.toNat - 48)) 0

/-- Maximal run of characters satisfying `p` (the greedy `X+` / `X*` step of
the embedded regexes), with the remainder of the input. -/
def takeRun (p : Char → Bool) : List Char → List Char × List Char
  | [] => ([], [])
  | c :: cs =>
    if p c then
      let r := takeRun p cs
      (c :: r.1, r.2)
    else ([], c :: cs)

/-- Predicate `startsWithL pat cs`: `cs` begins with the literal `pat`. -/
def startsWithL : List Char → List Char → Bool
  | [], _ => true
  | _ :: _, [] => false
  | p :: ps, c :: cs => p == c && startsWithL ps cs

/-- Case-insensitive `startsWithL`; `pat` is given in lower case. -/
def startsWithCI : List Char → List Char → Bool
  | [], _ => true
  | _ :: _, [] => false
  | p :: ps, c :: cs => p == lowerC c && startsWithCI ps cs

/-- Strip the literal `pat` from the front of `cs`, returning the rest. -/
def stripPre : List Char → List Char → Option (List Char)
  | [], cs => some cs
  | _ :: _, [] => none
  | p :: ps, c :: cs => if p = c then stripPre ps cs else none

/-- Case-insensitive `stripPre` (`pat` given in lower case). -/
def stripPreCI : List Char → List Char → Option (List Char)
  | [], cs => some cs
  | _ :: _, [] => none
  | p :: ps, c :: cs => if p = lowerC c then stripPreCI ps cs else none

/-- Leftmost-match driver: try the position matcher `f` at every suffix of
the input, left to right, returning the first success.  This is the JS
regex-engine behaviour of scanning start positions in increasing order. -/
def scanFirst (f : List Char → Option α) : List Char → Option α
  | [] => f []
  | c :: cs =>
    match f (c :: cs) with
    | some x => some x
    | none => scanFirst f cs

/-- JS `String.prototype.trim`: drop whitespace at both ends. -/
def trimL (cs : List Char) : List Char :=
  ((cs.dropWhile isWs).reverse.dropWhile isWs).reverse

/-- Case-sensitive substring test (JS `regex.test` for a literal pattern). -/
def containsL (pat : List Char) (cs : List Char) : Bool :=
  (scanFirst (fun t => if startsWithL pat t then some () else none) cs).isSome

/-- Case-insensitive substring test (literal pattern with the `i` flag). -/
def containsCI (pat : List Char) (cs : List Char) : Bool :=
  (scanFirst (fun t => if startsWithCI pat t then some () else none) cs).isSome

/-- True when the list is empty or does not start with a digit; the boundary
condition under which a greedy `\d+` run stops. -/
def headNotDigit : List Char → Bool
  | [] => true
  | c :: _ => !c.isDigit

/-! ### Token sequences

The sub-pattern `[^\s]+(?: [^\s]+)*` (used by the `from A to B`,
`between A and B`, `after X`, `before X`, `around X` and `about X` regexes
of `extractTimeRange`) matches maximal single-space-separated runs of
non-whitespace characters. -/

/-- Helper `tokAux ok cs`: `cs` completes a match of `[^\s]+(?: [^\s]+)*` given
that `ok` records whether at least one non-whitespace character of the
current token has been consumed. -/
def tokAux : Bool → List Char → Bool
  | ok, [] => ok
  | ok, c :: rest =>
    if c = ' ' then
      if ok then tokAux false rest else false
    else if c.isWhitespace then false
    else tokAux true rest

/-- Whether `cs` matches `[^\s]+(?: [^\s]+)*` exactly. -/
def tokenSeqB (cs : List Char) : Bool := tokAux false cs

/-- Continuation of `maxTokenSeq` once inside a token. -/
def maxTokSeqCont : List Char → List Char
  | [] => []
  | c :: rest =>
    if c.isWhitespace then
      if c = ' ' then
        match rest with
        | [] => []
        | c2 :: rest2 =>
          if c2.isWhitespace then [] else ' ' :: c2 :: maxTokSeqCont rest2
      else []
    else c :: maxTokSeqCont rest

/-- The greedy (maximal) match of `[^\s]+(?: [^\s]+)*` at the head of the
input; `[]` when there is none. -/
def maxTokenSeq : List Char → List Char
  | [] => []
  | c :: rest => if c.isWhitespace then [] else c :: maxTokSeqCont rest

/-! ### The individual patterns of `agent.js` -/

/-- Units captured by `(minute|hour|second)` / `(hour|minute|second)`. -/
inductive TimeUnit
  | hour
  | minute
  | second
deriving DecidableEq, Repr

/-- Seconds per unit. -/
def unitSecs : TimeUnit → Nat
  | .hour => 3600
  | .minute => 60
  | .second => 1

/-- Alternation `(minute|hour|second)s?` at the head of the input (the
optional `s` and anything after it are unconstrained). -/
def unitAt (cs : List Char) : Option TimeUnit :=
  match stripPre "minute".toList cs with
  | some _ => some .minute
  | none =>
    match stripPre "hour".toList cs with
    | some _ => some .hour
    | none =>
      match stripPre "second".toList cs with
      | some _ => some .second
      | none => none

/-- Optional ordinal suffix `(?:st|nd|rd|th)?` at the head of the input:
the rest after greedily consuming one of the four suffixes, when present. -/
def stripOrd (cs : List Char) : Option (List Char) :=
  match stripPre "st".toList cs with
  | some r => some r
  | none =>
    match stripPre "nd".toList cs with
    | some r => some r
    | none =>
      match stripPre "rd".toList cs with
      | some r => some r
      | none => stripPre "th".toList cs

/-- After the digit run of `(\d+)(?:st|nd|rd|th)? minute`, does the rest
match `(?:st|nd|rd|th)? minute` (suffix attempt first, as the greedy
optional group does)? -/
def ordMinuteAfter (cs : List Char) : Bool :=
  (match stripOrd cs with
   | some r => startsWithL " minute".toList r
   | none => false) ||
  startsWithL " minute".toList cs

/-- Position matcher for `/(\d+)(?:st|nd|rd|th)? minute/`. -/
def nthMinuteAt (cs : List Char) : Option Nat :=
  match takeRun Char.isDigit cs with
  | ([], _) => none
  | (ds, r) => if ordMinuteAfter r then some (digitsVal ds) else none

/-- Regex `/(\d+)(?:st|nd|rd|th)? minute/` over the whole input. -/
def matchNthMinute (cs : List Char) : Option Nat := scanFirst nthMinuteAt cs

/-- Position matcher for `/<kw>(\d+) (minute|hour|second)s?/` where `kw` is
one of the literals `first `, `last `, `after `, `before `. -/
def numUnitAt (kw : List Char) (cs : List Char) : Option (Nat × TimeUnit) :=
  match stripPre kw cs with
  | none => none
  | some r1 =>
    match takeRun Char.isDigit r1 with
    | ([], _) => none
    | (ds, r2) =>
      match stripPre " ".toList r2 with
      | none => none
      | some r3 =>
        match unitAt r3 with
        | none => none
        | some u => some (digitsVal ds, u)

/-- Regex `/first (\d+) (minute|hour|second)s?/` (case-sensitive, as in both
`parseTimeString` and `extractTimeRange`). -/
def matchFirstNU (cs : List Char) : Option (Nat × TimeUnit) :=
  scanFirst (numUnitAt "first ".toList) cs

/-- Regex `/last (\d+) (minute|hour|second)s?/`. -/
def matchLastNU (cs : List Char) : Option (Nat × TimeUnit) :=
  scanFirst (numUnitAt "last ".toList) cs

/-- Regex `/after (\d+) (hour|minute|second)s?/` of `parseTimeString` (the
alternation order differs from `first`/`last` but its alternatives are
mutually exclusive literals, so the same matcher is faithful). -/
def matchAfterNU (cs : List Char) : Option (Nat × TimeUnit) :=
  scanFirst (numUnitAt "after ".toList) cs

/-- Regex `/before (\d+) (hour|minute|second)s?/` of `parseTimeString`. -/
def matchBeforeNU (cs : List Char) : Option (Nat × TimeUnit) :=
  scanFirst (numUnitAt "before ".toList) cs

/-- Position matcher for `/(\d+)\s*(?:X|Xlonger)/` where only the first
letter `X` of the alternation is decisive (`h|hour`, `m|min`, `s|sec`). -/
def numWsLetterAt (letter : Char) (cs : List Char) : Option Nat :=
  match takeRun Char.isDigit cs with
  | ([], _) => none
  | (ds, r) =>
    match (takeRun isWs r).2 with
    | [] => none
    | c :: _ => if c = letter then some (digitsVal ds) else none

/-- Regex `/(\d+)\s*(?:h|hour)/i` on already-lower-cased input. -/
def matchHNum (cs : List Char) : Option Nat := scanFirst (numWsLetterAt 'h') cs

/-- Regex `/(\d+)\s*(?:m|min)/i` on already-lower-cased input. -/
def matchMNum (cs : List Char) : Option Nat := scanFirst (numWsLetterAt 'm') cs

/-- Regex `/(\d+)\s*(?:s|sec)/i` on already-lower-cased input. -/
def matchSNum (cs : List Char) : Option Nat := scanFirst (numWsLetterAt 's') cs

/-- Position matcher for `/(\d+):(\d{2})(?::(\d{2}))?/`: hours digits, a
colon, exactly two minute digits, and optionally a colon with exactly two
second digits. -/
def colonAt (cs : List Char) : Option (Nat × Nat × Option Nat) :=
  match takeRun Char.isDigit cs with
  | ([], _) => none
  | (ds, r) =>
    match r with
    | ':' :: d1 :: d2 :: rest =>
      if d1.isDigit && d2.isDigit then
        let m := digitsVal [d1, d2]
        match rest with
        | ':' :: e1 :: e2 :: _ =>
          if e1.isDigit && e2.isDigit then
            some (digitsVal ds, m, some (digitsVal [e1, e2]))
          else some (digitsVal ds, m, none)
        | _ => some (digitsVal ds, m, none)
      else none
    | _ => none

/-- Regex `/(\d+):(\d{2})(?::(\d{2}))?/` over the whole input. -/
def matchColon (cs : List Char) : Option (Nat × Nat × Option Nat) :=
  scanFirst colonAt cs

/-! ### The two-group range patterns

`/from ([^\s]+(?: [^\s]+)*) to ([^\s]+(?: [^\s]+)*)/i` and its `between`/
`and` sibling.  The greedy first group backtracks only at token boundaries
(a shorter stop leaves a non-space character where the literal separator
needs a space), so the engine's first success is the largest prefix of
token-sequence shape followed by the separator and a non-empty second
group. -/

/-- Try group-1 lengths `j, j-1, ..., 1`: `rest.take j` must match
`[^\s]+(?: [^\s]+)*`, then the separator `sep` (lower-cased literal,
matched case-insensitively), then a non-empty greedy group 2. -/
def splitSep (rest sep : List Char) : Nat → Option (List Char × List Char)
  | 0 => none
  | j + 1 =>
    match
      (if tokenSeqB (rest.take (j + 1)) then
        match stripPreCI sep (rest.drop (j + 1)) with
        | some post =>
          match maxTokenSeq post with
          | [] => none
          | g2 => some (rest.take (j + 1), g2)
        | none => none
      else none) with
    | some r => some r
    | none => splitSep rest sep j

/-- Position matcher for `kw (group1) sep (group2)` with greedy group 1. -/
def fromToAt (kw sep : List Char) (cs : List Char) : Option (List Char × List Char) :=
  match stripPreCI kw cs with
  | none => none
  | some rest => splitSep rest sep rest.length

/-- Regex `/from ([^\s]+(?: [^\s]+)*) to ([^\s]+(?: [^\s]+)*)/i`. -/
def matchFromTo (cs : List Char) : Option (List Char × List Char) :=
  scanFirst (fromToAt "from ".toList " to ".toList) cs

/-- Regex `/between ([^\s]+(?: [^\s]+)*) and ([^\s]+(?: [^\s]+)*)/i`. -/
def matchBetweenAnd (cs : List Char) : Option (List Char × List Char) :=
  scanFirst (fromToAt "between ".toList " and ".toList) cs

/-- Position matcher for `/minutes? (\d+) to (\d+)/i`; the two captured
digit runs are returned as strings because the caller feeds
`rangeMatch[1]`/`rangeMatch[2]` to `parseTimeString` (see
`extractTimeRange`). -/
def minutesPairAt (cs : List Char) : Option (List Char × List Char) :=
  match stripPreCI "minute".toList cs with
  | none => none
  | some r1 =>
    let r2 := match stripPreCI "s".toList r1 with
      | some r => r
      | none => r1
    match stripPre " ".toList r2 with
    | none => none
    | some r3 =>
      match takeRun Char.isDigit r3 with
      | ([], _) => none
      | (d1, r4) =>
        match stripPreCI " to ".toList r4 with
        | none => none
        | some r5 =>
          match takeRun Char.isDigit r5 with
          | ([], _) => none
          | (d2, _) => some (d1, d2)

/-- Regex `/minutes? (\d+) to (\d+)/i`. -/
def matchMinutesPair (cs : List Char) : Option (List Char × List Char) :=
  scanFirst minutesPairAt cs

/-- Position matcher for a case-sensitive `kw ([^\s]+(?: [^\s]+)*)` with a
greedy, maximal single group (`after X` and `before X` of
`extractTimeRange`, which carry no `i` flag). -/
def kwAnyAt (kw : List Char) (cs : List Char) : Option (List Char) :=
  match stripPre kw cs with
  | none => none
  | some r =>
    match maxTokenSeq r with
    | [] => none
    | g => some g

/-- Regex `/after ([^\s]+(?: [^\s]+)*)/` (case-sensitive). -/
def matchAfterAny (cs : List Char) : Option (List Char) :=
  scanFirst (kwAnyAt "after ".toList) cs

/-- Regex `/before ([^\s]+(?: [^\s]+)*)/` (case-sensitive). -/
def matchBeforeAny (cs : List Char) : Option (List Char) :=
  scanFirst (kwAnyAt "before ".toList) cs

/-- Case-insensitive variant of `kwAnyAt` for `around X` / `about X`. -/
def kwAnyAtCI (kw : List Char) (cs : List Char) : Option (List Char) :=
  match stripPreCI kw cs with
  | none => none
  | some r =>
    match maxTokenSeq r with
    | [] => none
    | g => some g

/-- Chain `match(/around (...)/i) || match(/about (...)/i) || match(/midway|middle/)`
of `extractTimeRange`; for the group-less `midway|middle` alternative the
source falls back to the literal phrase `midway`
(`aroundMatch[1] || 'midway'`, and a captured group is a non-empty string,
hence always truthy). -/
def matchAroundAboutMid (cs : List Char) : Option (List Char) :=
  match scanFirst (kwAnyAtCI "around ".toList) cs with
  | some g => some g
  | none =>
    match scanFirst (kwAnyAtCI "about ".toList) cs with
    | some g => some g
    | none =>
      if containsL "midway".toList cs || containsL "middle".toList cs then
        some "midway".toList
      else none

/-! ### `parseTimeString` (agent.js lines 142-203) -/

/-- Core of `parseTimeString`, over the already lower-cased character list. -/
def parseTimeStringL (cs : List Char) (videoDurationSec : Int) : Int :=
  match matchNthMinute cs with
  | some m => (m : Int) * 60
  | none =>
    match matchFirstNU cs with
    | some _ => 0
    | none =>
      match matchLastNU cs with
      | some (v, u) => videoDurationSec - (v : Int) * (unitSecs u : Int)
      | none =>
        match matchAfterNU cs with
        | some (v, u) => (v : Int) * (unitSecs u : Int)
        | none =>
          match matchBeforeNU cs with
          | some (v, u) => (v : Int) * (unitSecs u : Int)
          | none =>
            let h0 := (matchHNum cs).getD 0
            let m0 := (matchMNum cs).getD 0
            let s0 := (matchSNum cs).getD 0
            let hms : Nat × Nat × Nat :=
              match matchColon cs with
              | some (ch, cm, some csec) => (ch, cm, csec)
              | some (ch, cm, none) => (ch, cm, s0)
              | none => (h0, m0, s0)
            if containsL "half an hour".toList cs then 30 * 60
            else if containsL "quarter".toList cs then 15 * 60
            else if containsL "midway".toList cs || containsL "middle".toList cs then
              Int.fdiv videoDurationSec 2
            else (hms.1 : Int) * 3600 + (hms.2.1 : Int) * 60 + (hms.2.2 : Int)

/-- Embedding of `parseTimeString(str, videoDurationSec)`: the flexible time-phrase
interpreter.  The source lower-cases its input first. -/
def parseTimeString (s : String) (videoDurationSec : Int) : Int :=
  parseTimeStringL (s.toList.map lowerC) videoDurationSec

/-! ### `extractTimeRange` (agent.js lines 206-260) -/

/-- A resolved `{start, end}` range in seconds (`end` is a Lean keyword, so
the second field is called `stop`). -/
structure TimeRange where
  start : Int
  stop : Int
deriving DecidableEq, Repr

/-- Seconds contributed by `N` of a unit in the `first`/`last` branches of
`extractTimeRange`. -/
def mulUnit (n : Nat) (u : TimeUnit) : Int := (n : Int) * (unitSecs u : Int)

/-- Embedding of `extractTimeRange(text, videoDurationSec)`.  Notes on fidelity:
the guard `rangeMatch[3] && rangeMatch[4]` of the source is dead code
(all three alternation regexes have exactly two capture groups), so both
captures always go through `parseTimeString`; and the `isNaN` test never
fires because `parseTimeString` always returns a number. -/
def extractTimeRange (text : String) (videoDurationSec : Int) : Option TimeRange :=
  let cs := text.toList
  let rangeMatch :=
    match matchFromTo cs with
    | some g => some g
    | none =>
      match matchBetweenAnd cs with
      | some g => some g
      | none => matchMinutesPair cs
  match rangeMatch with
  | some (g1, g2) =>
    some ⟨parseTimeString (String.mk g1) videoDurationSec,
          parseTimeString (String.mk g2) videoDurationSec⟩
  | none =>
    match matchFirstNU cs with
    | some (n, u) => some ⟨0, mulUnit n u⟩
    | none =>
      match matchLastNU cs with
      | some (n, u) => some ⟨videoDurationSec - mulUnit n u, videoDurationSec⟩
      | none =>
        match matchAfterAny cs with
        | some g => some ⟨parseTimeString (String.mk g) videoDurationSec, videoDurationSec⟩
        | none =>
          match matchBeforeAny cs with
          | some g => some ⟨0, parseTimeString (String.mk g) videoDurationSec⟩
          | none =>
            match matchAroundAboutMid cs with
            | some g =>
              let center := parseTimeString (String.mk g) videoDurationSec
              some ⟨max 0 (center - 60), center + 60⟩
            | none => none

/-! ### `extractMinuteOrTimestamp` (agent.js lines 39-53) -/

/-- The three result shapes of `extractMinuteOrTimestamp`. -/
inductive TimeRef
  | minute (m : Nat)
  | seconds (s : Nat)
  | lastMinute
deriving DecidableEq, Repr

/-- Position matcher for `/at (\d+):(\d{2})/` (case-sensitive): the result
is `minutes * 60 + two-digit seconds-field`, exactly
`parseInt(g1) * 60 + parseInt(g2)`. -/
def atColonAt (cs : List Char) : Option Nat :=
  match stripPre "at ".toList cs with
  | none => none
  | some r =>
    match takeRun Char.isDigit r with
    | ([], _) => none
    | (ds, r2) =>
      match r2 with
      | ':' :: d1 :: d2 :: _ =>
        if d1.isDigit && d2.isDigit then
          some (digitsVal ds * 60 + digitsVal [d1, d2])
        else none
      | _ => none

/-- Embedding of `extractMinuteOrTimestamp(text)`: an `Nth minute` phrase, then an
`at H:MM` phrase, then the literal `last minute`; all case-sensitive, on
the raw (not lower-cased) input. -/
def extractMinuteOrTimestamp (text : String) : Option TimeRef :=
  let cs := text.toList
  match matchNthMinute cs with
  | some m => some (.minute m)
  | none =>
    match scanFirst atColonAt cs with
    | some s => some (.seconds s)
    | none =>
      if containsL "last minute".toList cs then some .lastMinute else none

/-! ### `extractTopic` (agent.js lines 120-129) and the keyword tests -/

/-- Regex `text.match(/about ([\w\s]+)/i)`, trimmed. -/
def aboutTopicOf (text : String) : Option String :=
  (scanFirst
    (fun t =>
      match stripPreCI "about ".toList t with
      | none => none
      | some r =>
        match takeRun (fun c => isWordC c || isWs c) r with
        | ([], _) => none
        | (run, _) => some (trimL run))
    text.toList).map String.mk

/-- Regex `text.match(/topic ([\w\s]+)/i)`, trimmed. -/
def topicKwOf (text : String) : Option String :=
  (scanFirst
    (fun t =>
      match stripPreCI "topic ".toList t with
      | none => none
      | some r =>
        match takeRun (fun c => isWordC c || isWs c) r with
        | ([], _) => none
        | (run, _) => some (trimL run))
    text.toList).map String.mk

/-- The double-quote character. -/
def quoteChar : Char := Char.ofNat 34

/-- Regex `text.match(/"([^"]+)"/)`, trimmed: a non-empty run between two double
quotes. -/
def quoteTopicOf (text : String) : Option String :=
  (scanFirst
    (fun t =>
      match t with
      | [] => none
      | c :: rest =>
        if c = quoteChar then
          match takeRun (fun c2 => !(c2 = quoteChar)) rest with
          | ([], _) => none
          | (run, r2) =>
            match r2 with
            | c2 :: _ => if c2 = quoteChar then some (trimL run) else none
            | [] => none
        else none)
    text.toList).map String.mk

/-- Embedding of `extractTopic(text)`: `about X`, then `topic X`, then a quoted
substring; `null` otherwise. -/
def extractTopic (text : String) : Option String :=
  match aboutTopicOf text with
  | some t => some t
  | none =>
    match topicKwOf text with
    | some t => some t
    | none => quoteTopicOf text

/-- Embedding of `isSentimentRequest(text)`: `/sentiment|emotion|feeling|tone/i`. -/
def isSentimentRequest (text : String) : Bool :=
  let cs := text.toList
  containsCI "sentiment".toList cs || containsCI "emotion".toList cs ||
    containsCI "feeling".toList cs || containsCI "tone".toList cs

/-- Embedding of `isMetadataRequest(text)`:
`/channel|views|likes|date|published|duration|length/i`. -/
def isMetadataRequest (text : String) : Bool :=
  let cs := text.toList
  containsCI "channel".toList cs || containsCI "views".toList cs ||
    containsCI "likes".toList cs || containsCI "date".toList cs ||
    containsCI "published".toList cs || containsCI "duration".toList cs ||
    containsCI "length".toList cs

/-! ### Transcript chunks and the segment selectors (agent.js lines 56-82) -/

/-- A `duration` value found in chunk metadata: a JS number or string. -/
inductive DurVal
  | num (n : Int)
  | str (s : String)
deriving DecidableEq, Repr

/-- The timing-related fields of a chunk's `metadata` object; a field whose
value is `none` models an absent (`undefined`) JS property. -/
structure ChunkMeta where
  startSec : Option Int
  endSec : Option Int
  duration : Option DurVal
deriving DecidableEq, Repr

/-- A transcript chunk as the selectors see it: a LangChain `Document` with
`pageContent` and a possibly absent `metadata` object.  (The spec calls
this `TranscriptChunk`.) -/
structure TranscriptChunk where
  pageContent : String
  meta : Option ChunkMeta
deriving DecidableEq, Repr

/-- JS `Array.prototype.slice(b, e)`: negative endpoints count from the
end, then both are clamped into `[0, length]`. -/
def jsSlice (l : List α) (b e : Int) : List α :=
  let len : Int := l.length
  let b' := (if b < 0 then max (len + b) 0 else min b len).toNat
  let e' := (if e < 0 then max (len + e) 0 else min e len).toNat
  (l.drop b').take (e' - b')

/-- JS indexing `l[i]`: `undefined` (here `none`) outside the range. -/
def intGet (l : List α) (i : Int) : Option α :=
  if 0 ≤ i then l.get? i.toNat else none

/-- Value `Math.ceil(docs.length / 10)`: the crude chunks-per-minute guess for an
assumed 10-minute video. -/
def approxChunkPerMinute (n : Nat) : Nat := (n + 9) / 10

/-- Embedding of `getTranscriptSegmentByMinute(docs, minute)`. -/
def getTranscriptSegmentByMinute (docs : List TranscriptChunk) (minute : Int) :
    List TranscriptChunk :=
  if docs.length = 0 then []
  else
    let a : Int := approxChunkPerMinute docs.length
    jsSlice docs ((minute - 1) * a) ((minute - 1) * a + a)

/-- The predicate of the `docs.find` call in `getTranscriptSegmentBySeconds`:
`d.metadata && d.metadata.start <= seconds && d.metadata.end > seconds`
(a comparison against an absent property is false). -/
def metaMatches (d : TranscriptChunk) (seconds : Int) : Bool :=
  match d.meta with
  | none => false
  | some m =>
    (match m.startSec with
     | some a => decide (a ≤ seconds)
     | none => false) &&
    (match m.endSec with
     | some b => decide (seconds < b)
     | none => false)

/-- Embedding of `getTranscriptSegmentBySeconds(docs, seconds)`.  The fallback
`[docs[idx]]` keeps whatever `docs[idx]` evaluates to, which is
`undefined` (`none`) when the proportional index is out of range;
`Math.floor((seconds / (10 * 60)) * docs.length)` is modelled in exact
integer arithmetic. -/
def getTranscriptSegmentBySeconds (docs : List TranscriptChunk) (seconds : Int) :
    List (Option TranscriptChunk) :=
  if docs.length = 0 then []
  else
    match docs.find? (fun d => metaMatches d seconds) with
    | some d => [some d]
    | none =>
      let idx : Int := Int.fdiv (seconds * docs.length) 600
      [intGet docs idx]

/-- Embedding of `getTranscriptSegmentLastMinute(docs)`: `docs.slice(-approx)`. -/
def getTranscriptSegmentLastMinute (docs : List TranscriptChunk) :
    List TranscriptChunk :=
  if docs.length = 0 then []
  else jsSlice docs (-(approxChunkPerMinute docs.length : Int)) docs.length

/-! ### URL handling (agent.js lines 26-36) -/

/-- The newline character (excluded from a captured video id). -/
def nlChar : Char := Char.ofNat 10

/-- Position matcher for the YouTube-URL regex of `extractYoutubeUrl`:
`https?://`, an optional `www.` or `m.`, one of the three host/path
literals, then a non-empty run of non-whitespace characters; the capture
is the whole match. -/
def urlAt (t : List Char) : Option (List Char) :=
  match stripPre "http".toList t with
  | none => none
  | some r1 =>
    let r2 := match stripPre "s".toList r1 with
      | some r => r
      | none => r1
    match stripPre "://".toList r2 with
    | none => none
    | some r3 =>
      let r4 := match stripPre "www.".toList r3 with
        | some r => r
        | none =>
          match stripPre "m.".toList r3 with
          | some r => r
          | none => r3
      let host :=
        match stripPre "youtube.com/watch?v=".toList r4 with
        | some r => some r
        | none =>
          match stripPre "youtu.be/".toList r4 with
          | some r => some r
          | none => stripPre "youtube.com/embed/".toList r4
      match host with
      | none => none
      | some r5 =>
        match takeRun (fun c => !c.isWhitespace) r5 with
        | ([], _) => none
        | (_, r6) => some (t.take (t.length - r6.length))

/-- Embedding of `extractYoutubeUrl(text)`. -/
def extractYoutubeUrl (text : String) : Option String :=
  (scanFirst urlAt text.toList).map String.mk

/-- Embedding of `getVideoIdFromUrl(url)`: one of the three host/path literals, then a
non-empty run of characters other than ampersand, newline, question mark
and hash. -/
def getVideoIdFromUrl (url : String) : Option String :=
  (scanFirst
    (fun t =>
      match
        (match stripPre "youtube.com/watch?v=".toList t with
         | some r => some r
         | none =>
           match stripPre "youtu.be/".toList t with
           | some r => some r
           | none => stripPre "youtube.com/embed/".toList t) with
      | none => none
      | some r =>
        match takeRun (fun c => !(c = '&' || c = nlChar || c = '?' || c = '#')) r with
        | ([], _) => none
        | (run, _) => some run)
    url.toList).map String.mk

/-! ### The agent's routing (agent.js lines 263-355)

The LLM invocations (`analyzeTranscriptSegment`, `summarizeAnalyzerResult`,
the sentiment/metadata prompts and the final summarizer call) are external
black boxes; the router's decision is therefore modelled as an `Outcome`
recording which branch fired and which chunks it handed to analysis.
Retrieval (`vectorStore.similaritySearch`) and the scrape trigger are
likewise inputs of the model. -/

/-- Which branch of the agent produced the reply. -/
inductive Outcome
  | timestampAnalysis (segment : List (Option TranscriptChunk))
  | topicAnalysis (docs : List TranscriptChunk)
  | sentimentAnalysis
  | metadataAnalysis
  | metadataUnavailable
  | fullSummary (docs : List TranscriptChunk)
  | scrapeStarted
  | scrapeFailed
  | passthrough
deriving DecidableEq, Repr

/-- A thrown JS error that escapes the agent. -/
inductive JsErr
  | referenceError
deriving DecidableEq, Repr

/-- Branches 3-5 of the router: sentiment, then metadata, then the
whole-video summary (agent.js lines 322-339). -/
def routeSentimentOn (input : String) (docs : List TranscriptChunk)
    (hasMetadata : Bool) : Outcome :=
  if isSentimentRequest input then .sentimentAnalysis
  else if isMetadataRequest input then
    if hasMetadata then .metadataAnalysis else .metadataUnavailable
  else .fullSummary docs

/-- Branch 2 of the router: the topic query (agent.js lines 313-321).
`if (topic)` is JS truthiness on a string, false exactly for `null` and
the empty string; when the topic search returns nothing the router falls
through to the later branches. -/
def routeTopicOn (input : String) (docs : List TranscriptChunk)
    (topicSearch : String → List TranscriptChunk) (hasMetadata : Bool) : Outcome :=
  match extractTopic input with
  | some t =>
    if t = "" then routeSentimentOn input docs hasMetadata
    else if topicSearch t = [] then routeSentimentOn input docs hasMetadata
    else .topicAnalysis (topicSearch t)
  | none => routeSentimentOn input docs hasMetadata

/-- The segment assembled by branch 1 of the router (agent.js lines
298-307).  `if (timeRef.minute)` and `if (timeRef.seconds)` are JS
truthiness tests on numbers, false for `0`. -/
def routeTimestampSegment (input : String) (docs : List TranscriptChunk) :
    List (Option TranscriptChunk) :=
  match extractMinuteOrTimestamp input with
  | some (.minute m) =>
    if m ≠ 0 then (getTranscriptSegmentByMinute docs (m : Int)).map some else []
  | some (.seconds s) =>
    if s ≠ 0 then getTranscriptSegmentBySeconds docs (s : Int) else []
  | some .lastMinute => (getTranscriptSegmentLastMinute docs).map some
  | none => []

/-- The router: the body of the `docs.length > 0` branch of the agent
(agent.js lines 287-340).  Branch 0 (the time-range query, lines 288-296)
calls `getTranscriptSegmentsByTimeRange`, an identifier that is defined
nowhere in the repository and is not imported; evaluating that call throws
a `ReferenceError`, so whenever `extractTimeRange` matches the branch
aborts the whole request. -/
def route (input : String) (docs : List TranscriptChunk)
    (topicSearch : String → List TranscriptChunk) (hasMetadata : Bool)
    (videoDurationSec : Int) : Except JsErr Outcome :=
  if (extractTimeRange input videoDurationSec).isSome then .error .referenceError
  else
    let segment := routeTimestampSegment input docs
    if segment ≠ [] then .ok (.timestampAnalysis segment)
    else .ok (routeTopicOn input docs topicSearch hasMetadata)

/-- Guard `metadata && Object.keys(metadata).length` of the router (agent.js line
330): `metadata` is `{}` unless the first retrieved chunk carries a
metadata object; a present metadata object is modelled as non-empty.  (No
claim exercises the metadata branch.) -/
def hasMetaOf (docs : List TranscriptChunk) : Bool :=
  match docs with
  | [] => false
  | d :: _ => d.meta.isSome

/-- The duration estimate of agent.js lines 270-281: 10800 s (3 h) unless
the first chunk's metadata has a truthy `duration`, a number being used
directly and a string being fed through `parseTimeString` (whose duration
argument defaults to 10800). -/
def durationOf (docs : List TranscriptChunk) : Int :=
  match docs with
  | [] => 10800
  | d :: _ =>
    match d.meta with
    | none => 10800
    | some m =>
      match m.duration with
      | some (.num n) => if n ≠ 0 then n else 10800
      | some (.str s) => if s ≠ "" then parseTimeString s 10800 else 10800
      | none => 10800

/-- The user-facing result of the scrape-trigger path (agent.js lines
342-349): a fixed message on success and another on failure, never a
propagated error. -/
def scrapeOutcome : Except Unit Unit → Outcome
  | .ok _ => .scrapeStarted
  | .error _ => .scrapeFailed

/-- The agent (agent.js lines 263-355).  `retrieval` is the result of
`vectorStore.similaritySearch('', 40, {video_id})`: `.error` models a
throw, which the source catches and logs, leaving `docs` empty;
`topicSearch` is the topic-filtered retrieval of the topic branch;
`scrape` is the result of `triggerYoutubeVideoScrape`. -/
def agent (input : String) (retrieval : Except Unit (List TranscriptChunk))
    (topicSearch : String → List TranscriptChunk) (scrape : Except Unit Unit) :
    Except JsErr Outcome :=
  match extractYoutubeUrl input with
  | none => .ok .passthrough
  | some url =>
    let docs : List TranscriptChunk :=
      match getVideoIdFromUrl url with
      | some _ =>
        match retrieval with
        | .ok ds => ds
        | .error _ => []
      | none => []
    if docs ≠ [] then
      route input docs topicSearch (hasMetaOf docs) (durationOf docs)
    else .ok (scrapeOutcome scrape)

/-! ### Concrete inputs used by witnesses -/

/-- A transcript chunk with no metadata object. -/
def chunkA : TranscriptChunk := ⟨"hello", none⟩

/-- The utterance of spec scenario 4 (the apostrophe is spelled via its
code point). -/
def sentimentUtterance : String :=
  "what" ++ String.singleton (Char.ofNat 39) ++ "s the sentiment of this video?"

/-! ### Generic lemmas about the scanners -/

theorem scanFirst_cons {α} {f : List Char → Option α} {c : Char} {cs : List Char}
    (h : f (c :: cs) = none) : scanFirst f (c :: cs) = scanFirst f cs := by
  simp [scanFirst, h]

theorem scanFirst_head_some {α} {f : List Char → Option α} {cs : List Char} {x : α}
    (h : f cs = some x) : scanFirst f cs = some x := by
  cases cs with
  | nil => simpa [scanFirst] using h
  | cons c cs => simp [scanFirst, h]

theorem takeRun_eq_of {p : Char → Bool} {ds rest : List Char}
    (h1 : ∀ c ∈ ds, p c = true)
    (h2 : ∀ c, rest.head? = some c → p c = false) :
    takeRun p (ds ++ rest) = (ds, rest) := by
  induction ds with
  | nil =>
    cases rest with
    | nil => rfl
    | cons c r => simp [takeRun, h2 c rfl]
  | cons d ds ih =>
    have hd : p d = true := h1 d (by simp)
    have ih' := ih (fun c hc => h1 c (by simp [hc]))
    simp [takeRun, hd, ih']

theorem stripPre_append (p rest : List Char) : stripPre p (p ++ rest) = some rest := by
  induction p with
  | nil => rfl
  | cons c p ih => simp [stripPre, ih]

theorem nthMinuteAt_nondigit {c : Char} {cs : List Char} (h : c.isDigit = false) :
    nthMinuteAt (c :: cs) = none := by
  simp [nthMinuteAt, takeRun, h]

theorem scan_nth_prefix {pre rest : List Char} (hpre : ∀ c ∈ pre, c.isDigit = false) :
    scanFirst nthMinuteAt (pre ++ rest) = scanFirst nthMinuteAt rest := by
  induction pre with
  | nil => rfl
  | cons c p ih =>
    rw [List.cons_append, scanFirst_cons (nthMinuteAt_nondigit (hpre c (by simp))),
      ih (fun c hc => hpre c (by simp [hc]))]

theorem scan_nth_digits {ds rest : List Char}
    (hds : ∀ c ∈ ds, c.isDigit = true)
    (hrest : ∀ c, rest.head? = some c → c.isDigit = false)
    (hfail : ordMinuteAfter rest = false) :
    scanFirst nthMinuteAt (ds ++ rest) = scanFirst nthMinuteAt rest := by
  induction ds with
  | nil => rfl
  | cons d ds ih =>
    have htr : takeRun Char.isDigit ((d :: ds) ++ rest) = (d :: ds, rest) :=
      takeRun_eq_of hds hrest
    have hnth : nthMinuteAt ((d :: ds) ++ rest) = none := by
      rw [nthMinuteAt, htr]
      simp [hfail]
    rw [List.cons_append] at hnth ⊢
    rw [scanFirst_cons hnth, ih (fun c hc => hds c (by simp [hc]))]

theorem scan_nth_digits_hit {ds rest : List Char} (hne : ds ≠ [])
    (hds : ∀ c ∈ ds, c.isDigit = true)
    (hrest : ∀ c, rest.head? = some c → c.isDigit = false)
    (hok : ordMinuteAfter rest = true) :
    scanFirst nthMinuteAt (ds ++ rest) = some (digitsVal ds) := by
  cases ds with
  | nil => exact absurd rfl hne
  | cons d ds =>
    have htr : takeRun Char.isDigit ((d :: ds) ++ rest) = (d :: ds, rest) :=
      takeRun_eq_of hds hrest
    have hnth : nthMinuteAt ((d :: ds) ++ rest) = some (digitsVal (d :: ds)) := by
      rw [nthMinuteAt, htr]
      simp [hok]
    rw [List.cons_append] at hnth ⊢
    exact scanFirst_head_some hnth

theorem scan_numUnit_none {k0 : Char} (k : List Char) {cs : List Char}
    (h : ∀ c ∈ cs, ¬(k0 = c)) :
    scanFirst (numUnitAt (k0 :: k)) cs = none := by
  induction cs with
  | nil => simp [scanFirst, numUnitAt, stripPre]
  | cons c cs ih =>
    have hat : numUnitAt (k0 :: k) (c :: cs) = none := by
      simp [numUnitAt, stripPre, h c (by simp)]
    rw [scanFirst_cons hat, ih (fun c hc => h c (by simp [hc]))]

theorem numUnitAt_build (kw : List Char) {ds : List Char} (rest' : List Char)
    {u : TimeUnit} (hne : ds ≠ []) (hds : ∀ c ∈ ds, c.isDigit = true)
    (hu : unitAt rest' = some u) :
    numUnitAt kw (kw ++ (ds ++ (' ' :: rest'))) = some (digitsVal ds, u) := by
  have h2 : takeRun Char.isDigit (ds ++ (' ' :: rest')) = (ds, ' ' :: rest') :=
    takeRun_eq_of hds (by intro c hc; simp at hc; rw [← hc]; decide)
  cases ds with
  | nil => exact absurd rfl hne
  | cons d ds =>
    simp only [numUnitAt, stripPre_append, h2]
    simp [stripPre, hu]

theorem digit_facts : ∀ c ∈ digitChars, c.isDigit = true ∧ lowerC c = c ∧
    ¬('f' = c) ∧ ¬('l' = c) ∧ ¬('b' = c) ∧ ¬('a' = c) := by decide

theorem strToList_append (a b : String) : (a ++ b).toList = a.toList ++ b.toList := by
  cases a
  cases b
  rfl

theorem map_lowerC_digits {ds : List Char} (h : ∀ c ∈ ds, c ∈ digitChars) :
    ds.map lowerC = ds := by
  induction ds with
  | nil => rfl
  | cons d ds ih =>
    rw [List.map_cons, (digit_facts d (h d (by simp))).2.1,
      ih (fun c hc => h c (by simp [hc]))]

/-- The lower-cased character list of `pre ++ digits ++ post` for the fixed
lower-case phrases used by the time-parser claims. -/
theorem lower_toList_frame (pre post : String) {ds : List Char}
    (hds : ∀ c ∈ ds, c ∈ digitChars)
    (hpre : pre.toList.map lowerC = pre.toList)
    (hpost : post.toList.map lowerC = post.toList) :
    ((pre ++ String.mk ds ++ post).toList.map lowerC) =
      pre.toList ++ (ds ++ post.toList) := by
  rw [strToList_append, strToList_append]
  show ((pre.toList ++ ds) ++ post.toList).map lowerC = _
  rw [List.map_append, List.map_append, hpre, hpost, map_lowerC_digits hds,
    List.append_assoc]

theorem head_not_digit_of {rest : List Char} (h : headNotDigit rest = true) :
    ∀ c, rest.head? = some c → c.isDigit = false := by
  intro c hc
  cases rest with
  | nil => simp at hc
  | cons r rs =>
    simp at hc
    rw [← hc]
    simpa [headNotDigit] using h

/-- The digit run of a phrase `kw ++ digits ++ post` is read by the
`Nth minute` pattern exactly when `post` begins with ` minute`. -/
theorem matchNthMinute_frame_hit (kw post : List Char) {ds : List Char}
    (hkw : ∀ c ∈ kw, c.isDigit = false) (hne : ds ≠ [])
    (hds : ∀ c ∈ ds, c.isDigit = true) (hpost : headNotDigit post = true)
    (hok : ordMinuteAfter post = true) :
    matchNthMinute (kw ++ (ds ++ post)) = some (digitsVal ds) := by
  rw [matchNthMinute, scan_nth_prefix hkw]
  exact scan_nth_digits_hit hne hds (head_not_digit_of hpost) hok

theorem matchNthMinute_frame_miss (kw post : List Char) {ds : List Char}
    (hkw : ∀ c ∈ kw, c.isDigit = false)
    (hds : ∀ c ∈ ds, c.isDigit = true) (hpost : headNotDigit post = true)
    (hfail : ordMinuteAfter post = false)
    (htail : scanFirst nthMinuteAt post = none) :
    matchNthMinute (kw ++ (ds ++ post)) = none := by
  rw [matchNthMinute, scan_nth_prefix hkw,
    scan_nth_digits hds (head_not_digit_of hpost) hfail]
  exact htail

/-- C3 (amended): for every duration `D` and every decimal digit string
`N`, `parseTimeString` on the phrase `last N minutes` returns `N * 60`,
because the higher-priority `Nth minute` pattern already matches
`N minute` inside the phrase; the subtraction the claim describes happens
only for non-minute units, where it is not clamped, e.g.
`last N hours` yields `D - N * 3600`, which is negative when
`N * 3600 > D`. -/
theorem parseTimeString_last_amended (D : Int) (ds : List Char)
    (h1 : ds ≠ []) (h2 : ∀ c ∈ ds, c ∈ digitChars) :
    parseTimeString ("last " ++ String.mk ds ++ " minutes") D = (digitsVal ds : Int) * 60 ∧
    parseTimeString ("last " ++ String.mk ds ++ " hours") D = D - (digitsVal ds : Int) * 3600 := by
  have hdig : ∀ c ∈ ds, c.isDigit = true := fun c hc => (digit_facts c (h2 c hc)).1
  constructor
  · rw [parseTimeString, lower_toList_frame "last " " minutes" h2 (by decide) (by decide)]
    have hnth := matchNthMinute_frame_hit "last ".toList
      " minutes".toList (by decide) h1 hdig (by decide) (by decide)
    rw [parseTimeStringL, hnth]
  · rw [parseTimeString, lower_toList_frame "last " " hours" h2 (by decide) (by decide)]
    have hnth := matchNthMinute_frame_miss "last ".toList
      " hours".toList (by decide) hdig (by decide) (by decide) (by decide)
    have hfirst : matchFirstNU ("last ".toList ++ (ds ++ " hours".toList)) = none := by
      rw [matchFirstNU, show "first ".toList = 'f' :: "irst ".toList from rfl]
      apply scan_numUnit_none
      intro c hc
      rw [List.mem_append] at hc
      rcases hc with hc | hc
      · exact (by decide : ∀ c ∈ "last ".toList, ¬('f' = c)) c hc
      · rw [List.mem_append] at hc
        rcases hc with hc | hc
        · exact (digit_facts c (h2 c hc)).2.2.1
        · exact (by decide : ∀ c ∈ " hours".toList, ¬('f' = c)) c hc
    have hlast : matchLastNU ("last ".toList ++ (ds ++ " hours".toList)) =
        some (digitsVal ds, .hour) := by
      rw [matchLastNU, show " hours".toList = ' ' :: "hours".toList from rfl]
      exact scanFirst_head_some
        (numUnitAt_build "last ".toList "hours".toList h1 hdig (by decide))
    rw [parseTimeStringL, hnth, hfirst, hlast]
    rfl

/-- Witness for `parseTimeString_last_amended` at `D = 10800`, `N = 5`. -/
theorem parseTimeString_last_amended_witness :
    parseTimeString "last 5 minutes" 10800 = (digitsVal ['5'] : Int) * 60 ∧
    parseTimeString "last 5 hours" 10800 = 10800 - (digitsVal ['5'] : Int) * 3600 :=
  parseTimeString_last_amended 10800 ['5'] (by decide) (by decide)

/-- C3 (counterexample): `parseTimeString("last 5 minutes", 10800)` is
`300`, not the claimed clamped `10800 - 300`; and the parser does return
negative seconds, e.g. `-6600` for `last 2 hours` with duration `600`. -/
theorem parseTimeString_last_cex :
    parseTimeString "last 5 minutes" 10800 = 300 ∧
    ((300 : Int) ≠ max 0 (10800 - 5 * 60)) ∧
    parseTimeString "last 2 hours" 600 = -6600 ∧ ((-6600 : Int) < 0) :=
  ⟨rfl, by decide, rfl, by decide⟩

/-- C6 (amended): for every `N` and duration, `parseTimeString` on
`first N hours` and `first N seconds` returns `0`, but on
`first N minutes` the higher-priority `Nth minute` pattern fires first and
the result is `N * 60`, not `0`. -/
theorem parseTimeString_first_amended (D : Int) (ds : List Char)
    (h1 : ds ≠ []) (h2 : ∀ c ∈ ds, c ∈ digitChars) :
    parseTimeString ("first " ++ String.mk ds ++ " hours") D = 0 ∧
    parseTimeString ("first " ++ String.mk ds ++ " seconds") D = 0 ∧
    parseTimeString ("first " ++ String.mk ds ++ " minutes") D = (digitsVal ds : Int) * 60 := by
  have hdig : ∀ c ∈ ds, c.isDigit = true := fun c hc => (digit_facts c (h2 c hc)).1
  refine ⟨?_, ?_, ?_⟩
  · rw [parseTimeString, lower_toList_frame "first " " hours" h2 (by decide) (by decide)]
    have hnth := matchNthMinute_frame_miss "first ".toList
      " hours".toList (by decide) hdig (by decide) (by decide) (by decide)
    have hfirst : matchFirstNU ("first ".toList ++ (ds ++ " hours".toList)) =
        some (digitsVal ds, .hour) := by
      rw [matchFirstNU, show " hours".toList = ' ' :: "hours".toList from rfl]
      exact scanFirst_head_some
        (numUnitAt_build "first ".toList "hours".toList h1 hdig (by decide))
    rw [parseTimeStringL, hnth, hfirst]
  · rw [parseTimeString, lower_toList_frame "first " " seconds" h2 (by decide) (by decide)]
    have hnth := matchNthMinute_frame_miss "first ".toList
      " seconds".toList (by decide) hdig (by decide) (by decide) (by decide)
    have hfirst : matchFirstNU ("first ".toList ++ (ds ++ " seconds".toList)) =
        some (digitsVal ds, .second) := by
      rw [matchFirstNU, show " seconds".toList = ' ' :: "seconds".toList from rfl]
      exact scanFirst_head_some
        (numUnitAt_build "first ".toList "seconds".toList h1 hdig (by decide))
    rw [parseTimeStringL, hnth, hfirst]
  · rw [parseTimeString, lower_toList_frame "first " " minutes" h2 (by decide) (by decide)]
    have hnth := matchNthMinute_frame_hit "first ".toList
      " minutes".toList (by decide) h1 hdig (by decide) (by decide)
    rw [parseTimeStringL, hnth]

/-- Witness for `parseTimeString_first_amended` at `D = 10800`, `N = 5`. -/
theorem parseTimeString_first_amended_witness :
    parseTimeString "first 5 hours" 10800 = 0 ∧
    parseTimeString "first 5 seconds" 10800 = 0 ∧
    parseTimeString "first 5 minutes" 10800 = (digitsVal ['5'] : Int) * 60 :=
  parseTimeString_first_amended 10800 ['5'] (by decide) (by decide)

/-- C6 (counterexample): `parseTimeString("first 5 minutes", 10800)` is
`300`, not the claimed `0`. -/
theorem parseTimeString_first_cex :
    parseTimeString "first 5 minutes" 10800 = 300 ∧ ((300 : Int) ≠ 0) :=
  ⟨rfl, by decide⟩

/-- C5 (counterexample): the utterance
`from 1:00 to 2:00 first 10 minutes` matches `first 10 minutes`, yet
`extractTimeRange` resolves the higher-priority `from A to B` pattern and
returns `{start := 3600, stop := 600}`, whose start is not `0` (the end is
`600` only because `parseTimeString` reads `10 minutes` out of the second
captured group). -/
theorem extractTimeRange_first_cex :
    matchFirstNU "from 1:00 to 2:00 first 10 minutes".toList =
      some (10, .minute) ∧
    extractTimeRange "from 1:00 to 2:00 first 10 minutes" 10800 =
      some ⟨3600, 600⟩ ∧
    (TimeRange.mk 3600 600).start ≠ 0 :=
  ⟨rfl, rfl, by decide⟩

/-- C5 (amended): for every utterance on which none of the explicit-range
patterns (`from A to B`, `between A and B`, `minutes M to N`) match and
the `first N minutes` pattern does match, `extractTimeRange` returns
`{start := 0, end := N * 60}`, for every duration. -/
theorem extractTimeRange_first_amended (text : String) (dur : Int) (n : Nat)
    (h1 : matchFromTo text.toList = none)
    (h2 : matchBetweenAnd text.toList = none)
    (h3 : matchMinutesPair text.toList = none)
    (h4 : matchFirstNU text.toList = some (n, .minute)) :
    extractTimeRange text dur = some ⟨0, (n : Int) * 60⟩ := by
  rw [extractTimeRange]
  simp only [h1, h2, h3, h4]
  rfl

/-- Witness for `extractTimeRange_first_amended` on `first 10 minutes`
with duration `600`. -/
theorem extractTimeRange_first_amended_witness :
    extractTimeRange "first 10 minutes" 600 = some ⟨0, (10 : Int) * 60⟩ :=
  extractTimeRange_first_amended "first 10 minutes" 600 10 rfl rfl rfl rfl

theorem jsSlice_subset (l : List α) (b e : Int) : ∀ c ∈ jsSlice l b e, c ∈ l := by
  intro c hc
  exact List.drop_subset _ l (List.take_subset _ _ hc)

/-- C4 (counterexample): with one metadata-less chunk,
`getTranscriptSegmentBySeconds` at `600` seconds (the assumed 10-minute
duration) returns `[undefined]` — a singleton holding a non-chunk value —
rather than an empty sequence. -/
theorem getTranscriptSegmentBySeconds_cex :
    getTranscriptSegmentBySeconds [chunkA] 600 = [none] ∧
    ([none] : List (Option TranscriptChunk)) ≠ [] :=
  ⟨rfl, by decide⟩

/-- C4 (amended): all three selectors return `[]` on an empty chunk list;
`getTranscriptSegmentByMinute` and `getTranscriptSegmentLastMinute` only
ever return chunks of the input (a `slice` never yields `undefined`); and
`getTranscriptSegmentBySeconds` yields a present chunk of the input for
any seconds value below the assumed `600`-second duration — but past that
duration its proportional index leaves the array and the singleton holds
`undefined` (see the counterexample). -/
theorem selectors_amended (docs : List TranscriptChunk) (m s : Int)
    (hs0 : 0 ≤ s) (hs : s < 600) :
    getTranscriptSegmentByMinute [] m = [] ∧
    getTranscriptSegmentBySeconds [] s = [] ∧
    getTranscriptSegmentLastMinute [] = [] ∧
    (∀ c ∈ getTranscriptSegmentByMinute docs m, c ∈ docs) ∧
    (∀ c ∈ getTranscriptSegmentLastMinute docs, c ∈ docs) ∧
    (docs ≠ [] → ∀ oc ∈ getTranscriptSegmentBySeconds docs s,
      ∃ c ∈ docs, oc = some c) := by
  refine ⟨rfl, rfl, rfl, ?_, ?_, ?_⟩
  · intro c hc
    rw [getTranscriptSegmentByMinute] at hc
    split at hc
    · simp at hc
    · exact jsSlice_subset _ _ _ c hc
  · intro c hc
    rw [getTranscriptSegmentLastMinute] at hc
    split at hc
    · simp at hc
    · exact jsSlice_subset _ _ _ c hc
  · intro hne oc hoc
    rw [getTranscriptSegmentBySeconds,
      if_neg (fun h => hne (List.length_eq_zero.mp h))] at hoc
    split at hoc
    · next d heq =>
      simp at hoc
      exact ⟨d, List.mem_of_find?_eq_some heq, hoc⟩
    · obtain ⟨n, rfl⟩ := Int.eq_ofNat_of_zero_le hs0
      have hn : n < 600 := by exact_mod_cast hs
      have hlen : 0 < docs.length := List.length_pos.mpr hne
      have hk : n * docs.length / 600 < docs.length :=
        (Nat.div_lt_iff_lt_mul (by decide)).mpr
          (by calc n * docs.length < 600 * docs.length :=
                  (Nat.mul_lt_mul_right hlen).mpr hn
                _ = docs.length * 600 := Nat.mul_comm _ _)
      have hidx : Int.fdiv ((n : Int) * (docs.length : Int)) 600 =
          ((n * docs.length / 600 : Nat) : Int) := by
        have h1 : ((n : Int) * (docs.length : Int)) = ((n * docs.length : Nat) : Int) := by
          push_cast
          ring
        rw [h1, show ((600 : Int)) = ((600 : Nat) : Int) from rfl]
        exact (Int.ofNat_fdiv _ _).symm
      rw [hidx] at hoc
      simp only [intGet, Int.toNat_natCast, if_pos (Int.natCast_nonneg _)] at hoc
      rw [List.get?_eq_get hk] at hoc
      simp at hoc
      exact ⟨docs.get ⟨_, hk⟩, List.get_mem docs _ hk, hoc⟩

/-- Witness for `selectors_amended` with one chunk and `s = 300`. -/
theorem selectors_amended_witness :
    getTranscriptSegmentByMinute [] 5 = [] ∧
    getTranscriptSegmentBySeconds [] 300 = [] ∧
    getTranscriptSegmentLastMinute [] = [] ∧
    (∀ c ∈ getTranscriptSegmentByMinute [chunkA] 5, c ∈ [chunkA]) ∧
    (∀ c ∈ getTranscriptSegmentLastMinute [chunkA], c ∈ [chunkA]) ∧
    ([chunkA] ≠ [] → ∀ oc ∈ getTranscriptSegmentBySeconds [chunkA] 300,
      ∃ c ∈ [chunkA], oc = some c) :=
  selectors_amended [chunkA] 5 300 (by decide) (by decide)

/-- C7: for every duration, `extractTimeRange` on
`from 1:00:00 to 1:30:00` resolves both endpoints through
`parseTimeString` and returns `{start := 3600, end := 5400}`. -/
theorem extractTimeRange_scenario2 (dur : Int) :
    extractTimeRange "from 1:00:00 to 1:30:00" dur = some ⟨3600, 5400⟩ := rfl

/-- C1: the range branch of the router calls
`getTranscriptSegmentsByTimeRange`, which is defined nowhere in the
repository, so any utterance on which `extractTimeRange` matches crashes
the agent with a `ReferenceError` instead of selecting the overlapping
chunks: here a concrete range query over a stored chunk. -/
theorem agent_range_reference_error :
    extractTimeRange "from 1:00:00 to 1:30:00 https://youtube.com/watch?v=abc"
      10800 = some ⟨3600, 5400⟩ ∧
    agent "from 1:00:00 to 1:30:00 https://youtube.com/watch?v=abc"
      (.ok [chunkA]) (fun _ => []) (.ok ()) = .error .referenceError :=
  ⟨rfl, rfl⟩

/-- C8: on the utterance of scenario 4 (with chunks available) neither the
time-range extractor, nor the timestamp extractor, nor the topic extractor
matches, the sentiment keyword test fires, and the router answers with the
sentiment branch. -/
theorem route_sentiment_scenario4 (docs : List TranscriptChunk)
    (topicSearch : String → List TranscriptChunk) (hasMetadata : Bool)
    (dur : Int) (hdocs : docs ≠ []) :
    extractTimeRange sentimentUtterance dur = none ∧
    extractMinuteOrTimestamp sentimentUtterance = none ∧
    extractTopic sentimentUtterance = none ∧
    isSentimentRequest sentimentUtterance = true ∧
    route sentimentUtterance docs topicSearch hasMetadata dur =
      .ok .sentimentAnalysis :=
  ⟨rfl, rfl, rfl, rfl, rfl⟩

/-- Witness for `route_sentiment_scenario4` with one chunk. -/
theorem route_sentiment_scenario4_witness :
    extractTimeRange sentimentUtterance 10800 = none ∧
    extractMinuteOrTimestamp sentimentUtterance = none ∧
    extractTopic sentimentUtterance = none ∧
    isSentimentRequest sentimentUtterance = true ∧
    route sentimentUtterance [chunkA] (fun _ => []) false 10800 =
      .ok .sentimentAnalysis :=
  route_sentiment_scenario4 [chunkA] (fun _ => []) false 10800 (by decide)

/-- C9: when the video id is resolvable but retrieval throws, the agent
catches the error, has no chunks, and falls through to the scrape-trigger
path, returning its user-facing outcome instead of propagating the
error. -/
theorem agent_retrieval_failure (input url vid : String)
    (topicSearch : String → List TranscriptChunk) (scrape : Except Unit Unit)
    (hurl : extractYoutubeUrl input = some url)
    (hvid : getVideoIdFromUrl url = some vid) :
    agent input (.error ()) topicSearch scrape = .ok (scrapeOutcome scrape) := by
  simp only [agent, hurl]
  cases getVideoIdFromUrl url <;> rfl

/-- Witness for `agent_retrieval_failure` on a concrete `youtu.be` URL. -/
theorem agent_retrieval_failure_witness :
    agent "summarize https://youtu.be/abc please" (.error ()) (fun _ => [])
      (.ok ()) = .ok .scrapeStarted :=
  agent_retrieval_failure _ "https://youtu.be/abc" "abc" _ _ rfl rfl

/-- C10: whenever `extractMinuteOrTimestamp` returns the shape
`{minute: 0}` (and no time range matches), the router's truthiness test
`if (timeRef.minute)` rejects the zero, no segment is selected, and the
routing continues with the topic/sentiment/metadata/summary branches. -/
theorem route_minute_zero (input : String) (docs : List TranscriptChunk)
    (topicSearch : String → List TranscriptChunk) (hasMetadata : Bool)
    (dur : Int)
    (h0 : extractMinuteOrTimestamp input = some (.minute 0))
    (h1 : extractTimeRange input dur = none) :
    route input docs topicSearch hasMetadata dur =
      .ok (routeTopicOn input docs topicSearch hasMetadata) := by
  rw [route, h1]
  simp [routeTimestampSegment, h0]

/-- Witness for `route_minute_zero` on the utterance
`summarize the 0th minute`, where the extractor does return `{minute: 0}`
and the router falls through (here to the whole-video summary). -/
theorem route_minute_zero_witness :
    extractMinuteOrTimestamp "summarize the 0th minute" = some (.minute 0) ∧
    route "summarize the 0th minute" [chunkA] (fun _ => []) false 10800 =
      .ok (routeTopicOn "summarize the 0th minute" [chunkA] (fun _ => []) false) :=
  ⟨rfl, route_minute_zero "summarize the 0th minute" [chunkA] (fun _ => [])
    false 10800 rfl rfl⟩

/-- C2: for an utterance whose `about X` phrase is picked up by the topic
extractor while neither the time-range patterns (which include their own
`about X` family) nor the timestamp patterns match, and whose
topic-filtered retrieval is non-empty, the router chooses the topic branch
and analyzes the topic-retrieved chunks. -/
theorem route_topic_about (input t : String) (docs : List TranscriptChunk)
    (topicSearch : String → List TranscriptChunk) (hasMetadata : Bool)
    (dur : Int) (hdocs : docs ≠ [])
    (h1 : extractTimeRange input dur = none)
    (h2 : extractMinuteOrTimestamp input = none)
    (h3 : aboutTopicOf input = some t)
    (h4 : t ≠ "")
    (h5 : topicSearch t ≠ []) :
    route input docs topicSearch hasMetadata dur =
      .ok (.topicAnalysis (topicSearch t)) := by
  rw [route, h1]
  simp [routeTimestampSegment, h2, routeTopicOn, extractTopic, h3, h4, h5]

/-- Witness for `route_topic_about`: `tell me about  dogs` (the doubled
space defeats the `about X` window family of `extractTimeRange` but not
the `[\w\s]+` topic capture), with a topic search returning one chunk. -/
theorem route_topic_about_witness :
    route "tell me about  dogs" [chunkA] (fun _ => [chunkA]) false 10800 =
      .ok (.topicAnalysis [chunkA]) :=
  route_topic_about "tell me about  dogs" "dogs" [chunkA] (fun _ => [chunkA])
    false 10800 (by decide) rfl rfl rfl (by decide) (by decide)
